import Mathlib

/-! Verification of the form/field/validator model of the `oop2_ex02`
registration program.  The repository ships `src/main.cpp`; the class headers
it includes (`Form.h`, `Field.h`, `RangeValidator.h`, `NoDigitValidator.h`,
`IdValidator.h`, the `ValuesToNames` family and the two cross-field
validators) are not in the repository, so those classes are modelled from the
specification, while the driver (`main`, the constants `MIN_AGE`/`MAX_AGE`,
the validation loop and the `currentYear` call sites) is embedded from
`src/main.cpp` directly. -/

namespace Oop2

/-- Modelled from the spec: `NoDigitValidator.h` is not under `src/`.
`validate(text)` returns true iff the string contains zero characters in the
digit range (works only on `std::string`). -/
def NoDigitValidator.validate (s : String) : Bool :=
  s.data.all (fun c => !c.isDigit)

/-- Modelled from the spec: `RangeValidator.h` is not under `src/`.
`validate(value)` returns `low <= value && value <= high` using the type's
natural ordering; the two bounds are fixed at construction. -/
def RangeValidator.validate {α : Type} [LinearOrder α] (low high x : α) : Bool :=
  decide (low ≤ x) && decide (x ≤ high)

/-- One weighted digit of the control-digit scheme: multiply the digit by its
weight and reduce a two-digit product to its digit sum (`p - 9`). -/
def weighDigit (w d : Nat) : Nat :=
  let p := w * d
  if p > 9 then p - 9 else p

/-- Weighted checksum of a digit list (least-significant digit first), with the
weights alternating 2,1,2,1,… starting from the digit adjacent to the check
digit. -/
def weightedSum : List Nat → Bool → Nat
  | [], _ => 0
  | d :: ds, alt => weighDigit (if alt then 2 else 1) d + weightedSum ds (!alt)

/-- The check digit determined by the leading digits of an ID: the complement
mod 10 of the weighted checksum of the leading part. -/
def checkDigit (leading : Nat) : Nat :=
  (10 - weightedSum (Nat.digits 10 leading) true % 10) % 10

/-- Modelled from the spec: `IdValidator.h` is not under `src/`.
`validate(id)` decomposes the numeric ID into decimal digits, computes the
fixed alternating-weight checksum over all digits except the last, and returns
true iff the computed check digit equals the ID's actual last digit. -/
def IdValidator.validate (idNum : Nat) : Bool :=
  checkDigit (idNum / 10) == idNum % 10

/-- Modelled from the spec: `Field.h` is not under `src/`.  A field owns a
prompt, a default-constructed value used while the field is unset, a current
value slot (initially empty), at most one single-field validator, and a
validity flag recomputed by `validate`. -/
structure FieldS (V : Type) where
  prompt : String
  dflt : V
  value : Option V
  validator : Option (V → Bool)
  isValid : Bool

/-- Modelled from the spec: `Field::readInput` is not under `src/`.  Reads one
value and stores it unconditionally; no validation is performed here. -/
def FieldS.readInput {V : Type} (f : FieldS V) (v : V) : FieldS V :=
  ⟨f.prompt, f.dflt, some v, f.validator, f.isValid⟩

/-- The boolean a `Field::validate` call computes: true when no validator is
attached, otherwise the attached validator applied to the current value (the
default-constructed value when the field is still unset). -/
def fieldCheck {V : Type} (f : FieldS V) : Bool :=
  match f.validator with
  | none => true
  | some p => p (f.value.getD f.dflt)

/-- Modelled from the spec: `Field::validate` is not under `src/`.  Recomputes
and stores the field's validity flag and leaves everything else unchanged. -/
def FieldS.validate {V : Type} (f : FieldS V) : FieldS V :=
  ⟨f.prompt, f.dflt, f.value, f.validator, fieldCheck f⟩

/-- A field is offered for (re-)entry by `fillForm` when it is empty or
currently marked invalid. -/
def FieldS.needsInput {V : Type} (f : FieldS V) : Bool :=
  f.value.isNone || !f.isValid

/-- Modelled from the spec: the cross-field validator headers
(`DestinationToFlightTimeValidator.h`, `DestinationToWifiBundleValidator.h`)
are not under `src/`.  A cross-field validator holds handles to two fields of
the form (indices into the form's field arena, the spec's suggested strategy)
and a fixed compatibility table. -/
structure CrossV (V : Type) where
  i : Nat
  j : Nat
  table : V → V → Bool

/-- The current value of the `i`-th field of a field list, `none` when the
index is out of range or the field is still unset. -/
def fieldValueAt {V : Type} (fs : List (FieldS V)) (i : Nat) : Option V :=
  (fs.get? i).bind (fun f => f.value)

/-- Modelled from the spec: cross-field `validate()` reads the current values
of the two referenced fields; if either is empty/unset the rule is treated as
failing, otherwise the pair is looked up in the fixed table. -/
def CrossV.check {V : Type} (c : CrossV V) (fs : List (FieldS V)) : Bool :=
  match fieldValueAt fs c.i, fieldValueAt fs c.j with
  | some a, some b => c.table a b
  | _, _ => false

/-- Modelled from the spec: `Form.h` is not under `src/`.  A form owns an
ordered sequence of field references and a collection of cross-field
validator references. -/
structure FormS (V : Type) where
  fields : List (FieldS V)
  crossVs : List (CrossV V)

/-- Modelled from the spec: `Form::validateForm` is not under `src/`.  Invokes
`validate()` on every field (updating each stored validity flag), then every
cross-field validator, without short-circuiting; returns true iff all results
are true. -/
def FormS.validateForm {V : Type} (F : FormS V) : FormS V × Bool :=
  let fs2 := F.fields.map FieldS.validate
  (⟨fs2, F.crossVs⟩,
    (F.fields.map fieldCheck).all (fun b => b)
      && (F.crossVs.map (fun c => c.check fs2)).all (fun b => b))

/-- Modelled from the spec: `Form::fillForm` is not under `src/`.  Walks the
fields in registration order; a field that is empty or invalid consumes the
next value of the input stream via `readInput`, a valid filled field is
skipped.  Returns the updated fields, the next input-stream position, and the
fields (pre-fill) that were prompted, in order. -/
def fillAux {V : Type} : List (FieldS V) → (Nat → V) → Nat →
    List (FieldS V) × Nat × List (FieldS V)
  | [], _, k => ([], k, [])
  | f :: fs, inp, k =>
    if f.needsInput then
      let r := fillAux fs inp (k + 1)
      (f.readInput (inp k) :: r.1, r.2.1, f :: r.2.2)
    else
      let r := fillAux fs inp k
      (f :: r.1, r.2.1, r.2.2)

/-- Modelled from the spec: `Form::fillForm` on a whole form (see `fillAux`). -/
def FormS.fillForm {V : Type} (F : FormS V) (inp : Nat → V) (k : Nat) :
    FormS V × Nat × List (FieldS V) :=
  let r := fillAux F.fields inp k
  (⟨r.1, F.crossVs⟩, r.2.1, r.2.2)

/-- The closed set of value kinds the six fields of `main` hold: `std::string`
for the name, `uint32_t` for the ID, `int` for the year of birth, and one
integer-coded named-value holder per enumeration kind (the spec's tagged-union
strategy for the template parameters of `Field`). -/
inductive Val where
  | vStr (s : String)
  | vU32 (n : Nat)
  | vInt (i : Int)
  | vDest (c : Int)
  | vTime (c : Int)
  | vWifi (c : Int)

/-- `NoDigitValidator` seen through the `Val` union (works only on strings). -/
def noDigitV : Val → Bool
  | Val.vStr s => NoDigitValidator.validate s
  | _ => false

/-- `IdValidator` seen through the `Val` union (works only on `uint32_t`). -/
def idV : Val → Bool
  | Val.vU32 n => IdValidator.validate n
  | _ => false

/-- `RangeValidator<int>` seen through the `Val` union. -/
def rangeIntV (low high : Int) : Val → Bool
  | Val.vInt i => RangeValidator.validate low high i
  | _ => false

/-- `RangeValidator<ValuesToNames<DestinationNames>>` seen through the `Val`
union; a named-value holder is ordered by its underlying integer code. -/
def rangeDestV (low high : Int) : Val → Bool
  | Val.vDest c => RangeValidator.validate low high c
  | _ => false

/-- `RangeValidator<ValuesToNames<FlightTimes>>` seen through the `Val` union. -/
def rangeTimeV (low high : Int) : Val → Bool
  | Val.vTime c => RangeValidator.validate low high c
  | _ => false

/-- `RangeValidator<ValuesToNames<WifiBundle>>` seen through the `Val` union. -/
def rangeWifiV (low high : Int) : Val → Bool
  | Val.vWifi c => RangeValidator.validate low high c
  | _ => false

/-- `constexpr int MIN_AGE = 15` of `src/main.cpp`. -/
def MIN_AGE : Int := 15

/-- `constexpr int MAX_AGE = 120` of `src/main.cpp`. -/
def MAX_AGE : Int := 120

/-- The form `main` (src/main.cpp lines 85-128) assembles: six fields in
registration order, each with its validator, and the two cross-field
validators referencing the destination field (index 3) together with the
flight-time field (index 4) and the WIFI-bundle field (index 5).  `clock` is
the stream of values returned by successive `currentYear()` calls: the call
for the lower bound of the age range is read at position 0 and the call for
the upper bound at position 1, and nothing else reads the clock.  The two
compatibility tables live in headers that are not under `src/`, so they are
parameters here; the enumeration listings appended to the last three prompts
also live in those headers and are elided from the prompt strings. -/
def mainSetup (clock : Nat → Int) (destTimeTable destWifiTable : Val → Val → Bool) :
    FormS Val :=
  ⟨[⟨"What is your name?", Val.vStr "", none, some noDigitV, false⟩,
    ⟨"What is your ID?", Val.vU32 0, none, some idV, false⟩,
    ⟨"What is your year of birth?", Val.vInt 0, none,
      some (rangeIntV (clock 0 - MAX_AGE) (clock 1 - MIN_AGE)), false⟩,
    ⟨"What is your flight destination?", Val.vDest 0, none, some (rangeDestV 1 5), false⟩,
    ⟨"What is your desired flight time range?", Val.vTime 0, none,
      some (rangeTimeV 1 3), false⟩,
    ⟨"What is your desired WIFI bundle?", Val.vWifi 0, none, some (rangeWifiV 1 3), false⟩],
   [⟨3, 4, destTimeTable⟩, ⟨3, 5, destWifiTable⟩]⟩

/-- The externally observable events of the validation loop of `main`
(src/main.cpp lines 131-151): a `validateForm` call with its result, the error
banner, the full form rendering, a `fillForm` pass, the goodbye rendering, and
the `return 0`. -/
inductive LEv where
  | validateEv (ok : Bool)
  | renderErrorEv
  | renderFormEv
  | fillEv
  | renderFinalEv
  | exitZeroEv

/-- The event block of one failing loop iteration (src/main.cpp lines 138-146):
`validateForm` returns false, the error screen and the full form are printed,
and another `fillForm` pass runs. -/
def failBlock : List LEv :=
  [LEv.validateEv false, LEv.renderErrorEv, LEv.renderFormEv, LEv.fillEv]

/-- The terminal event block (src/main.cpp lines 148-151): `validateForm`
returns true, the goodbye screen and the form are printed, and `main` returns
exit status 0. -/
def doneBlock : List LEv :=
  [LEv.validateEv true, LEv.renderFinalEv, LEv.exitZeroEv]

/-- The validation loop of `main` (src/main.cpp lines 138-151), with a fuel
bound standing in for the unbounded interactive retry loop: validate the form;
when valid, render the final state and exit 0; otherwise show the error
screen, re-render, refill the empty-or-invalid fields, and repeat.  Returns
the event trace and, when the loop finished within `fuel` refills, the final
form. -/
def valLoop {V : Type} (fuel : Nat) (F : FormS V) (inp : Nat → V) (k : Nat) :
    List LEv × Option (FormS V) :=
  if (F.validateForm).2 then (doneBlock, some (F.validateForm).1)
  else
    match fuel with
    | 0 => ([LEv.validateEv false], none)
    | fuel' + 1 =>
      let s := (F.validateForm).1.fillForm inp k
      let t := valLoop fuel' s.1 inp s.2.1
      (failBlock ++ t.1, t.2)

/-- The driver after the welcome screen (src/main.cpp lines 131-151): one
initial `fillForm` pass over the freshly assembled form, then the validation
loop. -/
def mainRun (clock : Nat → Int) (destTimeTable destWifiTable : Val → Val → Bool)
    (inp : Nat → Val) (fuel : Nat) : List LEv × Option (FormS Val) :=
  let s := (mainSetup clock destTimeTable destWifiTable).fillForm inp 0
  let r := valLoop fuel s.1 inp s.2.1
  (LEv.fillEv :: r.1, r.2)

/-- A form whose single field always fails its validator: the loop never
terminates on it, whatever the fuel. -/
def stuckForm : FormS Unit :=
  ⟨[⟨"x", (), none, some (fun _ => false), false⟩], []⟩

theorem validate_field_value {V : Type} (f : FieldS V) :
    (FieldS.validate f).value = f.value := rfl

theorem fieldValueAt_map_validate {V : Type} (fs : List (FieldS V)) (i : Nat) :
    fieldValueAt (fs.map FieldS.validate) i = fieldValueAt fs i := by
  simp only [fieldValueAt, List.get?_eq_getElem?, List.getElem?_map]
  cases fs[i]? <;> rfl

theorem crossCheck_map_validate {V : Type} (c : CrossV V) (fs : List (FieldS V)) :
    c.check (fs.map FieldS.validate) = c.check fs := by
  simp only [CrossV.check, fieldValueAt_map_validate]

theorem validateForm_snd {V : Type} (F : FormS V) :
    (F.validateForm).2 = true ↔
      ((∀ f ∈ F.fields, fieldCheck f = true) ∧ ∀ c ∈ F.crossVs, c.check F.fields = true) := by
  simp [FormS.validateForm, Bool.and_eq_true, List.all_eq_true, crossCheck_map_validate]

theorem fillAux_prompted {V : Type} (fs : List (FieldS V)) (inp : Nat → V) (k : Nat) :
    (fillAux fs inp k).2.2 = fs.filter FieldS.needsInput := by
  induction fs generalizing k with
  | nil => rfl
  | cons f rest ih =>
    cases h : f.needsInput with
    | true => simp [fillAux, h, List.filter_cons, ih]
    | false => simp [fillAux, h, List.filter_cons, ih]

theorem fillAux_forall2 {V : Type} (fs : List (FieldS V)) (inp : Nat → V) (k : Nat)
    (h : ∀ f ∈ fs, f.value = none → f.isValid = false) :
    List.Forall₂ (fun g f => FieldS.needsInput g = FieldS.needsInput f ∧ g.prompt = f.prompt)
      (fillAux fs inp k).1 fs := by
  induction fs generalizing k with
  | nil => exact List.Forall₂.nil
  | cons f rest ih =>
    have hrest : ∀ g ∈ rest, g.value = none → g.isValid = false :=
      fun g hg => h g (List.mem_cons_of_mem _ hg)
    cases hn : f.needsInput with
    | false =>
      simp only [fillAux, hn, Bool.false_eq_true, if_false]
      exact List.Forall₂.cons ⟨rfl, rfl⟩ (ih k hrest)
    | true =>
      have hval : f.isValid = false := by
        cases hv : f.value with
        | none => exact h f (List.mem_cons_self f rest) hv
        | some v =>
          have hn2 := hn
          simp [FieldS.needsInput, hv] at hn2
          exact hn2
      simp only [fillAux, hn, if_true]
      refine List.Forall₂.cons ⟨?_, rfl⟩ (ih (k + 1) hrest)
      simp [FieldS.needsInput, FieldS.readInput, hval, hn]

theorem filter_prompt_eq {V : Type} {gs fs : List (FieldS V)}
    (h : List.Forall₂
      (fun g f => FieldS.needsInput g = FieldS.needsInput f ∧ g.prompt = f.prompt) gs fs) :
    (gs.filter FieldS.needsInput).map FieldS.prompt
      = (fs.filter FieldS.needsInput).map FieldS.prompt := by
  induction h with
  | nil => rfl
  | @cons g f gs2 fs2 hgf htl ih =>
    obtain ⟨hn, hp⟩ := hgf
    cases hf : FieldS.needsInput f with
    | true => simp [List.filter_cons, hn, hf, hp, ih]
    | false => simp [List.filter_cons, hn, hf, ih]

theorem fillAux_no_empty {V : Type} (fs : List (FieldS V)) (inp : Nat → V) (k : Nat) :
    ∀ g ∈ (fillAux fs inp k).1, g.value ≠ none := by
  induction fs generalizing k with
  | nil =>
    intro g hg
    simp [fillAux] at hg
  | cons f rest ih =>
    intro g hg
    cases hn : f.needsInput with
    | true =>
      rw [fillAux] at hg
      simp only [hn, if_true] at hg
      rcases List.mem_cons.mp hg with rfl | hg2
      · exact fun hcon => Option.noConfusion hcon
      · exact ih (k + 1) g hg2
    | false =>
      rw [fillAux] at hg
      simp only [hn, Bool.false_eq_true, if_false] at hg
      rcases List.mem_cons.mp hg with rfl | hg2
      · intro hval
        rw [FieldS.needsInput, hval] at hn
        simp at hn
      · exact ih k g hg2

theorem mainSetup_fields_fresh (clock : Nat → Int) (t1 t2 : Val → Val → Bool) :
    ∀ f ∈ (mainSetup clock t1 t2).fields, f.value = none ∧ f.isValid = false := by
  intro f hf
  simp only [mainSetup, List.mem_cons] at hf
  rcases hf with rfl | rfl | rfl | rfl | rfl | rfl | hf
  · exact ⟨rfl, rfl⟩
  · exact ⟨rfl, rfl⟩
  · exact ⟨rfl, rfl⟩
  · exact ⟨rfl, rfl⟩
  · exact ⟨rfl, rfl⟩
  · exact ⟨rfl, rfl⟩
  · simp at hf

theorem valLoop_done {V : Type} (fuel : Nat) (F : FormS V) (inp : Nat → V) (k : Nat)
    (hv : (F.validateForm).2 = true) :
    valLoop fuel F inp k = (doneBlock, some (F.validateForm).1) := by
  rw [valLoop.eq_def, hv]
  simp

theorem valLoop_fail_zero {V : Type} (F : FormS V) (inp : Nat → V) (k : Nat)
    (hv : (F.validateForm).2 = false) :
    valLoop 0 F inp k = ([LEv.validateEv false], none) := by
  rw [valLoop.eq_def, hv]
  simp

theorem valLoop_fail_succ {V : Type} (fuel : Nat) (F : FormS V) (inp : Nat → V) (k : Nat)
    (hv : (F.validateForm).2 = false) :
    valLoop (fuel + 1) F inp k =
      (failBlock ++ (valLoop fuel ((F.validateForm).1.fillForm inp k).1 inp
          ((F.validateForm).1.fillForm inp k).2.1).1,
        (valLoop fuel ((F.validateForm).1.fillForm inp k).1 inp
          ((F.validateForm).1.fillForm inp k).2.1).2) := by
  rw [valLoop.eq_def, hv]
  simp

theorem validateForm_idem {V : Type} (F : FormS V) :
    ((F.validateForm).1.validateForm).2 = (F.validateForm).2 := by
  simp only [FormS.validateForm, List.map_map]
  have h1 : F.fields.map (fieldCheck ∘ FieldS.validate) = F.fields.map fieldCheck :=
    List.map_congr_left (fun f _ => rfl)
  have h3 : F.fields.map (FieldS.validate ∘ FieldS.validate) = F.fields.map FieldS.validate :=
    List.map_congr_left (fun f _ => rfl)
  rw [h1, h3]

theorem fillAux_validators {V : Type} (fs : List (FieldS V)) (inp : Nat → V) (k : Nat) :
    ((fillAux fs inp k).1).map FieldS.validator = fs.map FieldS.validator := by
  induction fs generalizing k with
  | nil => rfl
  | cons f rest ih =>
    cases hn : f.needsInput with
    | true => simp [fillAux, hn, FieldS.readInput, ih]
    | false => simp [fillAux, hn, ih]

theorem validateForm_validators {V : Type} (F : FormS V) :
    (F.validateForm).1.fields.map FieldS.validator = F.fields.map FieldS.validator := by
  simp only [FormS.validateForm, List.map_map]
  exact List.map_congr_left (fun f _ => rfl)

theorem stuck_validateForm_false {V : Type} (F : FormS V)
    (h : some (fun _ => false) ∈ F.fields.map FieldS.validator) :
    (F.validateForm).2 = false := by
  rw [Bool.eq_false_iff]
  intro ht
  obtain ⟨hf, _⟩ := (validateForm_snd F).mp ht
  obtain ⟨f, hmem, hval⟩ := List.mem_map.mp h
  have hc := hf f hmem
  unfold fieldCheck at hc
  rw [hval] at hc
  simp at hc

theorem valLoop_stuck {V : Type} : ∀ (fuel : Nat) (F : FormS V) (inp : Nat → V) (k : Nat),
    some (fun _ => false) ∈ F.fields.map FieldS.validator →
    (valLoop fuel F inp k).2 = none := by
  intro fuel
  induction fuel with
  | zero =>
    intro F inp k h
    rw [valLoop_fail_zero F inp k (stuck_validateForm_false F h)]
  | succ n ih =>
    intro F inp k h
    rw [valLoop_fail_succ n F inp k (stuck_validateForm_false F h)]
    apply ih
    show some _ ∈ (fillAux (F.validateForm).1.fields inp k).1.map FieldS.validator
    rw [fillAux_validators, validateForm_validators]
    exact h

theorem valLoop_validators {V : Type} : ∀ (fuel : Nat) (F : FormS V) (inp : Nat → V)
    (k : Nat) (F' : FormS V), (valLoop fuel F inp k).2 = some F' →
    F'.fields.map FieldS.validator = F.fields.map FieldS.validator := by
  intro fuel
  induction fuel with
  | zero =>
    intro F inp k F' h
    cases hv : (F.validateForm).2 with
    | false =>
      rw [valLoop_fail_zero F inp k hv] at h
      exact absurd h (by simp)
    | true =>
      rw [valLoop_done 0 F inp k hv] at h
      rw [← Option.some.inj h]
      exact validateForm_validators F
  | succ n ih =>
    intro F inp k F' h
    cases hv : (F.validateForm).2 with
    | true =>
      rw [valLoop_done (n + 1) F inp k hv] at h
      rw [← Option.some.inj h]
      exact validateForm_validators F
    | false =>
      rw [valLoop_fail_succ n F inp k hv] at h
      have := ih _ inp _ F' h
      rw [this]
      show (fillAux (F.validateForm).1.fields inp k).1.map FieldS.validator = _
      rw [fillAux_validators, validateForm_validators]

theorem valLoop_some_shape {V : Type} : ∀ (fuel : Nat) (F : FormS V) (inp : Nat → V)
    (k : Nat) (F' : FormS V), (valLoop fuel F inp k).2 = some F' →
    (∃ n, n ≤ fuel ∧
      (valLoop fuel F inp k).1 = List.flatten (List.replicate n failBlock) ++ doneBlock)
    ∧ (F'.validateForm).2 = true := by
  intro fuel
  induction fuel with
  | zero =>
    intro F inp k F' h
    cases hv : (F.validateForm).2 with
    | false =>
      rw [valLoop_fail_zero F inp k hv] at h
      exact absurd h (by simp)
    | true =>
      rw [valLoop_done 0 F inp k hv] at h ⊢
      obtain rfl : (F.validateForm).1 = F' := Option.some.inj h
      exact ⟨⟨0, Nat.le_refl 0, by simp⟩, by rw [validateForm_idem, hv]⟩
  | succ n ih =>
    intro F inp k F' h
    cases hv : (F.validateForm).2 with
    | true =>
      rw [valLoop_done (n + 1) F inp k hv] at h ⊢
      obtain rfl : (F.validateForm).1 = F' := Option.some.inj h
      exact ⟨⟨0, Nat.zero_le _, by simp⟩, by rw [validateForm_idem, hv]⟩
    | false =>
      rw [valLoop_fail_succ n F inp k hv] at h ⊢
      obtain ⟨⟨m, hm, htr⟩, hF'⟩ := ih _ inp _ F' h
      refine ⟨⟨m + 1, Nat.succ_le_succ hm, ?_⟩, hF'⟩
      simp only [htr, List.replicate_succ, List.flatten_cons, List.append_assoc]

theorem valLoop_none_shape {V : Type} : ∀ (fuel : Nat) (F : FormS V) (inp : Nat → V)
    (k : Nat), (valLoop fuel F inp k).2 = none →
    ∃ n, n ≤ fuel ∧
      (valLoop fuel F inp k).1
        = List.flatten (List.replicate n failBlock) ++ [LEv.validateEv false] := by
  intro fuel
  induction fuel with
  | zero =>
    intro F inp k h
    cases hv : (F.validateForm).2 with
    | true =>
      rw [valLoop_done 0 F inp k hv] at h
      exact absurd h (by simp)
    | false =>
      rw [valLoop_fail_zero F inp k hv]
      exact ⟨0, Nat.le_refl 0, by simp⟩
  | succ n ih =>
    intro F inp k h
    cases hv : (F.validateForm).2 with
    | true =>
      rw [valLoop_done (n + 1) F inp k hv] at h
      exact absurd h (by simp)
    | false =>
      rw [valLoop_fail_succ n F inp k hv] at h ⊢
      obtain ⟨m, hm, htr⟩ := ih _ inp _ h
      refine ⟨m + 1, Nat.succ_le_succ hm, ?_⟩
      simp only [htr, List.replicate_succ, List.flatten_cons, List.append_assoc]

/-- Claim C1: `IdValidator::validate` decomposes the ID into decimal digits,
computes the fixed alternating-weight checksum over all digits except the
last, and returns true iff the computed check digit equals the ID's actual
last digit; consequently, for an ID formed by appending digit `d` to leading
digits `L`, validation succeeds exactly when `d` is the check digit of `L`. -/
theorem idValidator_validate_correct (idNum L d : Nat) (_hu : idNum < 2 ^ 32)
    (hd : d < 10) :
    (IdValidator.validate idNum = decide (checkDigit (idNum / 10) = idNum % 10))
    ∧ (IdValidator.validate (10 * L + d) = true ↔ d = checkDigit L) := by
  constructor
  · by_cases h : checkDigit (idNum / 10) = idNum % 10 <;>
      simp [IdValidator.validate, h]
  · have h1 : (10 * L + d) / 10 = L := by omega
    have h2 : (10 * L + d) % 10 = d := by omega
    simp only [IdValidator.validate, h1, h2, beq_iff_eq]
    exact eq_comm

theorem idValidator_validate_witness :
    123456782 < 2 ^ 32 ∧ 2 < 10
    ∧ (IdValidator.validate 123456782 = true ↔ 2 = checkDigit 12345678) :=
  ⟨by decide, by decide,
    (idValidator_validate_correct 123456782 12345678 2 (by decide) (by decide)).2⟩

/-- Claim C2: `validateForm` returns true iff every field's own `validate`
result is true and every cross-field validator passes; it updates every
field's stored validity flag (no short-circuiting) and leaves every field's
value untouched. -/
theorem validateForm_correct {V : Type} (F : FormS V) :
    ((F.validateForm).2 = true ↔
      ((∀ f ∈ F.fields, fieldCheck f = true) ∧ ∀ c ∈ F.crossVs, c.check F.fields = true))
    ∧ (F.validateForm).1.fields.map FieldS.isValid = F.fields.map fieldCheck
    ∧ (F.validateForm).1.fields.map FieldS.value = F.fields.map FieldS.value
    ∧ (F.validateForm).1.crossVs = F.crossVs := by
  refine ⟨validateForm_snd F, ?_, ?_, rfl⟩
  · simp only [FormS.validateForm, List.map_map]
    exact List.map_congr_left (fun f _ => rfl)
  · simp only [FormS.validateForm, List.map_map]
    exact List.map_congr_left (fun f _ => rfl)

/-- Claim C3: `fillForm` invokes `readInput` exactly on the fields, in
registration order, that are empty or currently marked invalid; and, for any
form state in which no field is simultaneously empty and marked valid (true of
every state the driver reaches, since fields start unset-and-invalid and every
fill pass fills each empty field), a second `fillForm` with no intervening
`validate` re-prompts the same fields again. -/
theorem fillForm_prompts_empty_or_invalid {V : Type} (F : FormS V)
    (inp inp2 : Nat → V) (k k2 : Nat)
    (h : ∀ f ∈ F.fields, f.value = none → f.isValid = false) :
    (F.fillForm inp k).2.2 = F.fields.filter FieldS.needsInput
    ∧ (((F.fillForm inp k).1.fillForm inp2 k2).2.2.map FieldS.prompt
        = (F.fillForm inp k).2.2.map FieldS.prompt) := by
  refine ⟨fillAux_prompted F.fields inp k, ?_⟩
  show ((fillAux (fillAux F.fields inp k).1 inp2 k2).2.2).map FieldS.prompt
      = ((fillAux F.fields inp k).2.2).map FieldS.prompt
  rw [fillAux_prompted, fillAux_prompted]
  exact filter_prompt_eq (fillAux_forall2 F.fields inp k h)

theorem fillForm_prompts_witness :
    ((⟨[⟨"a", (), none, none, false⟩, ⟨"b", (), some (), none, true⟩], []⟩
        : FormS Unit).fillForm (fun _ => ()) 0).2.2
      = [(⟨"a", (), none, none, false⟩ : FieldS Unit),
          ⟨"b", (), some (), none, true⟩].filter FieldS.needsInput
    ∧ ((((⟨[⟨"a", (), none, none, false⟩, ⟨"b", (), some (), none, true⟩], []⟩
          : FormS Unit).fillForm (fun _ => ()) 0).1.fillForm (fun _ => ()) 0).2.2.map
            FieldS.prompt
        = ((⟨[⟨"a", (), none, none, false⟩, ⟨"b", (), some (), none, true⟩], []⟩
          : FormS Unit).fillForm (fun _ => ()) 0).2.2.map FieldS.prompt) := by
  refine fillForm_prompts_empty_or_invalid _ _ (fun _ => ()) 0 0 ?_
  intro f hf hv
  rcases List.mem_cons.mp hf with rfl | hf2
  · rfl
  · rcases List.mem_singleton.mp hf2 with rfl
    exact Option.noConfusion hv

/-- Claim C4: `RangeValidator(low, high).validate(x)` returns true iff
`low <= x` and `x <= high`, for any ordered type; both boundaries are
included, and anything below `low` or above `high` is rejected. -/
theorem rangeValidator_validate_correct {α : Type} [LinearOrder α] (low high x : α) :
    (RangeValidator.validate low high x = true ↔ low ≤ x ∧ x ≤ high)
    ∧ (low ≤ high →
        RangeValidator.validate low high low = true
          ∧ RangeValidator.validate low high high = true)
    ∧ ((x < low ∨ high < x) → RangeValidator.validate low high x = false) := by
  refine ⟨by simp [RangeValidator.validate], ?_, ?_⟩
  · intro h
    constructor <;> simp [RangeValidator.validate, h, le_refl]
  · rintro (h | h) <;>
      simp [RangeValidator.validate, not_le.mpr h]

theorem rangeValidator_validate_witness :
    (RangeValidator.validate (1 : Int) 5 3 = true ↔ (1 : Int) ≤ 3 ∧ (3 : Int) ≤ 5)
    ∧ (RangeValidator.validate (1 : Int) 5 1 = true
        ∧ RangeValidator.validate (1 : Int) 5 5 = true)
    ∧ RangeValidator.validate (1 : Int) 5 7 = false :=
  ⟨(rangeValidator_validate_correct 1 5 3).1,
    (rangeValidator_validate_correct 1 5 3).2.1 (by decide),
    (rangeValidator_validate_correct 1 5 7).2.2 (Or.inr (by decide))⟩

/-- Claim C5: a cross-field validator whose referenced destination or
flight-time/WIFI-bundle field is empty/unset returns false rather than being
skipped, and consequently `validateForm` on such a form returns false. -/
theorem crossValidator_empty_fails {V : Type} (F : FormS V) (c : CrossV V)
    (hc : c ∈ F.crossVs)
    (h : fieldValueAt F.fields c.i = none ∨ fieldValueAt F.fields c.j = none) :
    c.check F.fields = false ∧ (F.validateForm).2 = false := by
  have hch : c.check F.fields = false := by
    rcases h with h | h
    · simp [CrossV.check, h]
    · cases hx : fieldValueAt F.fields c.i <;> simp [CrossV.check, hx, h]
  refine ⟨hch, ?_⟩
  rw [Bool.eq_false_iff]
  intro htrue
  have h2 := ((validateForm_snd F).mp htrue).2 c hc
  rw [hch] at h2
  exact Bool.false_ne_true h2

theorem crossValidator_empty_fails_witness :
    CrossV.check ⟨0, 0, fun _ _ => true⟩ [(⟨"a", (), none, none, false⟩ : FieldS Unit)] = false
    ∧ (FormS.validateForm
        ⟨[(⟨"a", (), none, none, false⟩ : FieldS Unit)], [⟨0, 0, fun _ _ => true⟩]⟩).2
      = false :=
  crossValidator_empty_fails ⟨[⟨"a", (), none, none, false⟩], [⟨0, 0, fun _ _ => true⟩]⟩ _
    (List.mem_singleton.mpr rfl) (Or.inl rfl)

/-- Claim C6: the validation loop's trace is a run of failing iterations, each
consisting of a false `validateForm` followed by the error screen, the full
form rendering and another `fillForm`, and it ends with the goodbye rendering
and exit status 0 exactly when a `validateForm` returns true; when the fuel
runs out (the loop itself has no iteration cap) the trace contains failing
iterations only and no final rendering, and a form that can never validate —
witness `stuckForm` — keeps the loop running for every fuel bound. -/
theorem mainLoop_state_machine :
    (∀ (V : Type) (fuel : Nat) (F : FormS V) (inp : Nat → V) (k : Nat) (F' : FormS V),
      (valLoop fuel F inp k).2 = some F' →
        (∃ n, n ≤ fuel ∧
          (valLoop fuel F inp k).1 = List.flatten (List.replicate n failBlock) ++ doneBlock)
        ∧ (F'.validateForm).2 = true)
    ∧ (∀ (V : Type) (fuel : Nat) (F : FormS V) (inp : Nat → V) (k : Nat),
        (valLoop fuel F inp k).2 = none →
          ∃ n, n ≤ fuel ∧
            (valLoop fuel F inp k).1
              = List.flatten (List.replicate n failBlock) ++ [LEv.validateEv false])
    ∧ (∀ (fuel : Nat) (inp : Nat → Unit) (k : Nat),
        (valLoop fuel stuckForm inp k).2 = none) := by
  refine ⟨fun V => valLoop_some_shape, fun V => valLoop_none_shape, ?_⟩
  intro fuel inp k
  refine valLoop_stuck fuel stuckForm inp k ?_
  rw [show stuckForm.fields.map FieldS.validator = [some (fun _ => false)] from rfl]
  exact List.mem_singleton.mpr rfl

theorem mainLoop_state_machine_witness :
    ((∃ n, n ≤ 0 ∧
        (valLoop 0 (⟨[], []⟩ : FormS Unit) (fun _ => ()) 0).1
          = List.flatten (List.replicate n failBlock) ++ doneBlock)
      ∧ (((⟨[], []⟩ : FormS Unit).validateForm).2 = true))
    ∧ (valLoop 5 stuckForm (fun _ => ()) 0).2 = none := by
  constructor
  · have h := mainLoop_state_machine.1 Unit 0 ⟨[], []⟩ (fun _ => ()) 0 ⟨[], []⟩ rfl
    exact ⟨h.1, h.2⟩
  · exact mainLoop_state_machine.2.2 5 (fun _ => ()) 0

/-- Claim C7: `NoDigitValidator::validate` returns false for every string
containing at least one digit character and true for every string with no
digit characters, the empty string included. -/
theorem noDigitValidator_validate_correct (s : String) :
    ((∃ c ∈ s.data, c.isDigit = true) → NoDigitValidator.validate s = false)
    ∧ ((∀ c ∈ s.data, c.isDigit = false) → NoDigitValidator.validate s = true)
    ∧ NoDigitValidator.validate "" = true := by
  refine ⟨?_, ?_, by decide⟩
  · rintro ⟨c, hc, hd⟩
    simp only [NoDigitValidator.validate]
    rw [Bool.eq_false_iff]
    intro hall
    have := List.all_eq_true.mp hall c hc
    simp [hd] at this
  · intro h
    simp only [NoDigitValidator.validate]
    exact List.all_eq_true.mpr (fun c hc => by simp [h c hc])

theorem noDigitValidator_validate_witness :
    NoDigitValidator.validate "a1" = false ∧ NoDigitValidator.validate "Jane Doe" = true :=
  ⟨(noDigitValidator_validate_correct "a1").1 ⟨'1', by decide, by decide⟩,
    (noDigitValidator_validate_correct "Jane Doe").2.1 (by decide)⟩

/-- Claim C8: a field with no attached validator always validates true,
whatever its stored value, the empty/unset sentinel included. -/
theorem field_no_validator_always_valid {V : Type} (f : FieldS V)
    (h : f.validator = none) :
    fieldCheck f = true ∧ (FieldS.validate f).isValid = true := by
  have hc : fieldCheck f = true := by
    unfold fieldCheck
    rw [h]
  exact ⟨hc, hc⟩

theorem field_no_validator_witness :
    fieldCheck (⟨"p", (), none, none, false⟩ : FieldS Unit) = true
    ∧ (FieldS.validate (⟨"p", (), none, none, false⟩ : FieldS Unit)).isValid = true :=
  field_no_validator_always_valid ⟨"p", (), none, none, false⟩ rfl

/-- Claim C9: with the current year `y`, the driver constructs the single-field
range validators with exactly the inclusive bounds `[y - 120, y - 15]` for the
year of birth, `[1, 5]` for the destination code, `[1, 3]` for the flight-time
code and `[1, 3]` for the WIFI-bundle code. -/
theorem mainSetup_range_bounds (y : Int) (t1 t2 : Val → Val → Bool) :
    (mainSetup (fun _ => y) t1 t2).fields.map FieldS.validator
      = [some noDigitV, some idV, some (rangeIntV (y - 120) (y - 15)),
        some (rangeDestV 1 5), some (rangeTimeV 1 3), some (rangeWifiV 1 3)]
    ∧ (∀ x : Int, rangeIntV (y - 120) (y - 15) (Val.vInt x)
        = (decide (y - 120 ≤ x) && decide (x ≤ y - 15)))
    ∧ (∀ c : Int, rangeDestV 1 5 (Val.vDest c) = (decide (1 ≤ c) && decide (c ≤ 5)))
    ∧ (∀ c : Int, rangeTimeV 1 3 (Val.vTime c) = (decide (1 ≤ c) && decide (c ≤ 3)))
    ∧ (∀ c : Int, rangeWifiV 1 3 (Val.vWifi c) = (decide (1 ≤ c) && decide (c ≤ 3))) :=
  ⟨rfl, fun _ => rfl, fun _ => rfl, fun _ => rfl, fun _ => rfl⟩

/-- Claim C10: `currentYear()` is read only while constructing the
year-of-birth range validator — once for each bound, positions 0 and 1 of the
clock stream — so two clocks agreeing there yield identical forms, identical
whole runs, and the validator list (hence the age bounds) of any form the loop
terminates with is the one fixed at setup. -/
theorem currentYear_read_only_at_setup (clock clock2 : Nat → Int)
    (t1 t2 : Val → Val → Bool) (h0 : clock 0 = clock2 0) (h1 : clock 1 = clock2 1)
    (fuel : Nat) (inp : Nat → Val) (k : Nat) :
    (mainSetup clock t1 t2).fields.map FieldS.validator
      = [some noDigitV, some idV, some (rangeIntV (clock 0 - 120) (clock 1 - 15)),
        some (rangeDestV 1 5), some (rangeTimeV 1 3), some (rangeWifiV 1 3)]
    ∧ mainSetup clock t1 t2 = mainSetup clock2 t1 t2
    ∧ mainRun clock t1 t2 inp fuel = mainRun clock2 t1 t2 inp fuel
    ∧ valLoop fuel (mainSetup clock t1 t2) inp k = valLoop fuel (mainSetup clock2 t1 t2) inp k
    ∧ (∀ F' : FormS Val, (valLoop fuel (mainSetup clock t1 t2) inp k).2 = some F' →
        F'.fields.map FieldS.validator
          = [some noDigitV, some idV, some (rangeIntV (clock 0 - 120) (clock 1 - 15)),
            some (rangeDestV 1 5), some (rangeTimeV 1 3), some (rangeWifiV 1 3)]) := by
  have hset : mainSetup clock t1 t2 = mainSetup clock2 t1 t2 := by
    unfold mainSetup
    rw [h0, h1]
  have hrun : mainRun clock t1 t2 inp fuel = mainRun clock2 t1 t2 inp fuel := by
    unfold mainRun
    rw [hset]
  refine ⟨rfl, hset, hrun, by rw [hset], ?_⟩
  intro F' h
  rw [valLoop_validators fuel (mainSetup clock t1 t2) inp k F' h]
  rfl

theorem currentYear_read_only_at_setup_witness :
    ((mainSetup (fun _ => (2024 : Int)) (fun _ _ => true) (fun _ _ => true)).fields.map
        FieldS.validator
      = [some noDigitV, some idV,
        some (rangeIntV ((fun _ => (2024 : Int)) 0 - 120) ((fun _ => (2024 : Int)) 1 - 15)),
        some (rangeDestV 1 5), some (rangeTimeV 1 3), some (rangeWifiV 1 3)])
    ∧ mainSetup (fun _ => (2024 : Int)) (fun _ _ => true) (fun _ _ => true)
      = mainSetup (fun n => if n < 2 then (2024 : Int) else 2025)
          (fun _ _ => true) (fun _ _ => true) := by
  have h := currentYear_read_only_at_setup (fun _ => (2024 : Int))
    (fun n => if n < 2 then (2024 : Int) else 2025)
    (fun _ _ => true) (fun _ _ => true) (by decide) (by decide) 0 (fun _ => Val.vStr "") 0
  exact ⟨h.1, h.2.1⟩

end Oop2
